import Mathlib

/-!
Verification of the TOM EXCHANGE bot (`src/tom_exchange_bot/bot.py`),
shallowly embedded in Lean 4.

Modelling conventions:
* Python `Decimal` values are modelled by `Dec`, a mantissa together with a
  decimal exponent (the value is `mant / 10 ^ exp`), exactly `Decimal`'s own
  representation; arithmetic and comparisons are exact (at the scales the
  bot handles, `Decimal`'s 28-digit context never rounds a product).
  `ℚ`-valued statements about a `Dec` go through `Dec.toRat`.
* SQLite tables (`orders`, `users`) are association lists keyed by the
  primary key; `UPDATE ... WHERE key = ?` is a key-preserving map and
  `INSERT` is an append.
* The Telegram transport is a function from recipient id to an outcome
  (delivered, 403 blocked, 429 rate-limited with a retry result, other
  failure), mirroring the branches of the `safe_*` helpers.
* Per-session FSM state and draft data (`telebot` state storage) are a
  `Session` value; each handler is a function from the current session,
  settings and ledger to the successor session plus an observable outcome.
-/

namespace TomBot

/-- `BONUS_BUY_AFTER = 5` (bot.py line 64). -/
def BONUS_BUY_AFTER : Nat := 5

/-- `BONUS_DISCOUNT_RUB = 20` (bot.py line 65). -/
def BONUS_DISCOUNT_RUB : Int := 20

/-- `ALLOWED_CRYPTOS = {"USDT_TRON", "LTC"}` (bot.py line 67). -/
def ALLOWED_CRYPTOS : List String := ["USDT_TRON", "LTC"]

/-- `DEFAULT_CRYPTOS = "USDT_TRON,LTC"` (bot.py line 61). -/
def DEFAULT_CRYPTOS : String := "USDT_TRON,LTC"

/-! ### Exact decimals (`decimal.Decimal`) -/

/-- A Python `Decimal`: value `mant / 10 ^ exp`.  (`Decimal` stores a sign,
a digit tuple and an exponent; this is the same data with the sign folded
into the integer mantissa.) -/
structure Dec where
  mant : Int
  exp : Nat
deriving DecidableEq

/-- The exact rational value of a decimal. -/
def Dec.toRat (d : Dec) : ℚ := (d.mant : ℚ) / ((10 : ℚ) ^ d.exp)

/-- Exact product of decimals (mantissas multiply, exponents add). -/
def Dec.mul (a b : Dec) : Dec := ⟨a.mant * b.mant, a.exp + b.exp⟩

/-- Value-level strict order on decimals (cross-multiplied mantissas). -/
def Dec.lt (a b : Dec) : Prop := a.mant * (10 : ℤ) ^ b.exp < b.mant * (10 : ℤ) ^ a.exp

/-- Value-level order on decimals (cross-multiplied mantissas). -/
def Dec.le (a b : Dec) : Prop := a.mant * (10 : ℤ) ^ b.exp ≤ b.mant * (10 : ℤ) ^ a.exp

instance (a b : Dec) : Decidable (a.lt b) := Int.decLt _ _

instance (a b : Dec) : Decidable (a.le b) := Int.decLe _ _

/-- `x.quantize(Decimal("1"), rounding=ROUND_FLOOR)`: the floor of the
value, computed on the mantissa by euclidean division. -/
def Dec.quantFloor (d : Dec) : ℤ := d.mant / (10 : ℤ) ^ d.exp

/-- `x.quantize(Decimal("1"), rounding=ROUND_CEILING)`: the ceiling of the
value, computed on the mantissa by euclidean division. -/
def Dec.quantCeil (d : Dec) : ℤ := -((-d.mant) / (10 : ℤ) ^ d.exp)

/-- `x.quantize(Decimal("0.01"))` under the default context rounding
`ROUND_HALF_EVEN`: round `value * 100` to the nearest integer mantissa,
ties to the even mantissa; the result carries exponent 2. -/
def Dec.quantize2 (d : Dec) : Dec :=
  let q : ℤ := d.mant * 100
  let den : ℤ := (10 : ℤ) ^ d.exp
  let f := q / den
  let r := q % den
  ⟨if 2 * r < den then f
    else if den < 2 * r then f + 1
    else if f % 2 = 0 then f else f + 1, 2⟩

/-! ### Settings (the `settings` table through its readers, bot.py 293-316) -/

/-- The settings relevant to the flows under verification.  Rates and the
minimum are kept at their parsed `Decimal` value; the `cryptos` entry keeps
its raw string form (`none` = row absent) because `get_enabled_cryptos`
re-parses it on every read. -/
structure Settings where
  buy_rate : Dec
  sell_rate : Dec
  min_usd : Dec
  cryptos : Option String
deriving DecidableEq

/-- `calc_rub` (bot.py 318-324): buy quantizes `usd * buy_rate` to a whole
unit with `ROUND_CEILING`, anything else (= sell) quantizes
`usd * sell_rate` with `ROUND_FLOOR`. -/
def calc_rub (st : Settings) (action : String) (usd_amount : Dec) : ℤ :=
  if action = "buy" then (usd_amount.mul st.buy_rate).quantCeil
  else (usd_amount.mul st.sell_rate).quantFloor

/-! ### Amount parsing (`parse_amount`, bot.py 283-291) -/

/-- ASCII digit test, as used by the decimal-literal grammar. -/
def isDigitCh (c : Char) : Bool := '0' ≤ c && c ≤ '9'

/-- Value of a digit string. -/
def digitsToNat (l : List Char) : Nat :=
  l.foldl (fun a c => 10 * a + (c.toNat - 48)) 0

/-- The plain part of Python's `Decimal` literal grammar: an optional sign,
then `digits`, `digits.digits`, `digits.` or `.digits`.  (`Decimal` also
accepts exponent, `NaN` and `Infinity` forms; those are not modelled — they
are rejected downstream or outside the claims, and every input a claim
mentions is in the modelled grammar.) -/
def parsePlainDec (l : List Char) : Option Dec :=
  let sg : Int := match l with
    | '-' :: _ => -1
    | _ => 1
  let rest : List Char := match l with
    | '-' :: r => r
    | '+' :: r => r
    | _ => l
  let ip := rest.takeWhile isDigitCh
  let rest2 := rest.drop ip.length
  match rest2 with
  | [] => if ip.isEmpty then none else some ⟨sg * digitsToNat ip, 0⟩
  | '.' :: fp =>
    if fp.all isDigitCh && !(ip.isEmpty && fp.isEmpty) then
      some ⟨sg * (digitsToNat ip * 10 ^ fp.length + digitsToNat fp), fp.length⟩
    else none
  | _ => none

/-- `parse_amount` (bot.py 283-291): replace `,` by `.`, strip surrounding
whitespace, parse as `Decimal`, reject values `≤ 0`, quantize to two
fractional digits (default rounding). -/
def parse_amount (text : String) : Option Dec :=
  let t :=
    (((text.toList.map fun c => if c = ',' then '.' else c).dropWhile
        Char.isWhitespace).reverse.dropWhile Char.isWhitespace).reverse
  match parsePlainDec t with
  | none => none
  | some amt => if amt.le ⟨0, 0⟩ then none else some amt.quantize2

example : parse_amount "100" = some ⟨10000, 2⟩ := by decide
example : parse_amount "100.50" = some ⟨10050, 2⟩ := by decide
example : parse_amount "100,50" = some ⟨10050, 2⟩ := by decide
example : parse_amount " 15.7 " = some ⟨1570, 2⟩ := by decide
example : parse_amount "0" = none := by decide
example : parse_amount "-5" = none := by decide
example : parse_amount "abc" = none := by decide
example : parse_amount "" = none := by decide
example : parse_amount "1.2.3" = none := by decide
example : parse_amount "0.001" = some ⟨0, 2⟩ := by decide
example : parse_amount "0.005" = some ⟨0, 2⟩ := by decide
example : parse_amount "0.015" = some ⟨2, 2⟩ := by decide
example : calc_rub ⟨⟨186, 1⟩, ⟨165, 1⟩, ⟨1000, 2⟩, none⟩ "buy" ⟨15050, 2⟩ = 2800 := by decide
example : calc_rub ⟨⟨186, 1⟩, ⟨165, 1⟩, ⟨1000, 2⟩, none⟩ "sell" ⟨15050, 2⟩ = 2483 := by decide

/-! ### Exactness of the decimal model -/

theorem Dec.toRat_mul (a b : Dec) : (a.mul b).toRat = a.toRat * b.toRat := by
  unfold Dec.mul Dec.toRat
  push_cast
  rw [pow_add, div_mul_div_comm]

theorem Dec.quantFloor_eq (d : Dec) : d.quantFloor = ⌊d.toRat⌋ := by
  unfold Dec.quantFloor Dec.toRat
  rw [show ((10 : ℚ) ^ d.exp) = ((10 ^ d.exp : ℕ) : ℚ) by push_cast; ring]
  rw [Rat.floor_intCast_div_natCast]
  push_cast
  rfl

theorem Dec.quantCeil_eq (d : Dec) : d.quantCeil = ⌈d.toRat⌉ := by
  have h1 := Dec.quantFloor_eq ⟨-d.mant, d.exp⟩
  have h2 : (Dec.mk (-d.mant) d.exp).toRat = -d.toRat := by
    unfold Dec.toRat
    push_cast
    ring
  have h3 : (Dec.mk (-d.mant) d.exp).quantFloor = (-d.mant) / (10 : ℤ) ^ d.exp := rfl
  unfold Dec.quantCeil
  rw [← h3, h1, h2, Int.floor_neg, neg_neg]

theorem Dec.lt_iff (a b : Dec) : a.lt b ↔ a.toRat < b.toRat := by
  unfold Dec.lt Dec.toRat
  rw [div_lt_div_iff₀ (by positivity) (by positivity)]
  constructor <;> intro h <;> exact_mod_cast h

theorem Dec.le_iff (a b : Dec) : a.le b ↔ a.toRat ≤ b.toRat := by
  unfold Dec.le Dec.toRat
  rw [div_le_div_iff₀ (by positivity) (by positivity)]
  constructor <;> intro h <;> exact_mod_cast h

theorem Dec.quantize2_mant_nonneg (d : Dec) (hd : 0 < d.mant) :
    0 ≤ d.quantize2.mant := by
  have hden : (0 : ℤ) < 10 ^ d.exp := pow_pos (by norm_num) _
  have hq : (0 : ℤ) < d.mant * 100 := by positivity
  have hf : 0 ≤ d.mant * 100 / 10 ^ d.exp := Int.ediv_nonneg hq.le hden.le
  simp only [Dec.quantize2]
  split_ifs <;> omega

theorem Dec.toRat_nonneg (d : Dec) (h : 0 ≤ d.mant) : 0 ≤ d.toRat := by
  unfold Dec.toRat
  apply div_nonneg
  · exact_mod_cast h
  · positivity

/-- **C1.** For a strictly positive 2-digit amount and positive rates, the
buy quote is the least integer above `amount * buy_rate` and the sell quote
the greatest integer below `amount * sell_rate`, computed exactly; at
amount 150.50 with the default rates 18.6 / 16.5 the quotes are 2800 and
2483. -/
theorem calc_rub_quote_bounds (st : Settings) (a : Dec)
    (_hpos : 0 < a.toRat) (_hq2 : a.exp = 2)
    (_hbr : 0 < st.buy_rate.toRat) (_hsr : 0 < st.sell_rate.toRat) :
    (a.toRat * st.buy_rate.toRat ≤ (calc_rub st "buy" a : ℚ) ∧
      ∀ n : ℤ, a.toRat * st.buy_rate.toRat ≤ (n : ℚ) → calc_rub st "buy" a ≤ n) ∧
    ((calc_rub st "sell" a : ℚ) ≤ a.toRat * st.sell_rate.toRat ∧
      ∀ n : ℤ, (n : ℚ) ≤ a.toRat * st.sell_rate.toRat → n ≤ calc_rub st "sell" a) ∧
    (∀ mu cs, calc_rub ⟨⟨186, 1⟩, ⟨165, 1⟩, mu, cs⟩ "buy" ⟨15050, 2⟩ = 2800) ∧
    (∀ mu cs, calc_rub ⟨⟨186, 1⟩, ⟨165, 1⟩, mu, cs⟩ "sell" ⟨15050, 2⟩ = 2483) := by
  have hbuy : calc_rub st "buy" a = ⌈a.toRat * st.buy_rate.toRat⌉ := by
    unfold calc_rub
    rw [if_pos rfl, Dec.quantCeil_eq, Dec.toRat_mul]
  have hsell : calc_rub st "sell" a = ⌊a.toRat * st.sell_rate.toRat⌋ := by
    unfold calc_rub
    rw [if_neg (by decide), Dec.quantFloor_eq, Dec.toRat_mul]
  refine ⟨⟨?_, ?_⟩, ⟨?_, ?_⟩, ?_, ?_⟩
  · rw [hbuy]; exact Int.le_ceil _
  · intro n hn; rw [hbuy]; exact Int.ceil_le.mpr hn
  · rw [hsell]; exact Int.floor_le _
  · intro n hn; rw [hsell]; exact Int.le_floor.mpr hn
  · intro mu cs; rfl
  · intro mu cs; rfl

/-- Witness for C1 at amount 150.50 and the default rates. -/
theorem calc_rub_quote_bounds_witness :
    calc_rub ⟨⟨186, 1⟩, ⟨165, 1⟩, ⟨1000, 2⟩, none⟩ "buy" ⟨15050, 2⟩ = 2800 ∧
    calc_rub ⟨⟨186, 1⟩, ⟨165, 1⟩, ⟨1000, 2⟩, none⟩ "sell" ⟨15050, 2⟩ = 2483 := by
  have h := calc_rub_quote_bounds ⟨⟨186, 1⟩, ⟨165, 1⟩, ⟨1000, 2⟩, none⟩ ⟨15050, 2⟩
    (by norm_num [Dec.toRat]) rfl (by norm_num [Dec.toRat]) (by norm_num [Dec.toRat])
  exact ⟨h.2.2.1 ⟨1000, 2⟩ none, h.2.2.2 ⟨1000, 2⟩ none⟩

/-- **C6** (amended: a returned value is nonnegative, not necessarily
strictly positive).  `parse_amount` maps `"100"` to the decimal 100.00 and
both `"100.50"` and `"100,50"` to the identical decimal 100.50; it rejects
`"0"`, `"-5"` and `"abc"`; and every value it returns carries exactly two
fractional digits and is nonnegative. -/
theorem parse_amount_behavior :
    parse_amount "100" = some ⟨10000, 2⟩ ∧
    parse_amount "100.50" = some ⟨10050, 2⟩ ∧
    parse_amount "100,50" = some ⟨10050, 2⟩ ∧
    (Dec.mk 10000 2).toRat = 100 ∧ (Dec.mk 10050 2).toRat = 201 / 2 ∧
    parse_amount "0" = none ∧ parse_amount "-5" = none ∧ parse_amount "abc" = none ∧
    ∀ s q, parse_amount s = some q → 0 ≤ q.toRat ∧ q.exp = 2 := by
  refine ⟨by decide, by decide, by decide, by norm_num [Dec.toRat],
    by norm_num [Dec.toRat], by decide, by decide, by decide, ?_⟩
  intro s q h
  cases hp : parsePlainDec
      (((s.toList.map fun c => if c = ',' then '.' else c).dropWhile
        Char.isWhitespace).reverse.dropWhile Char.isWhitespace).reverse with
  | none => simp only [parse_amount, hp] at h; cases h
  | some a =>
    simp only [parse_amount, hp] at h
    by_cases hle : a.le ⟨0, 0⟩
    · rw [if_pos hle] at h; cases h
    · rw [if_neg hle] at h
      obtain rfl : a.quantize2 = q := Option.some.inj h
      have hm : 0 < a.mant := by
        unfold Dec.le at hle
        simp only [pow_zero, mul_one, zero_mul] at hle
        omega
      exact ⟨Dec.toRat_nonneg _ (Dec.quantize2_mant_nonneg a hm), rfl⟩

/-- Witness for C6's universal part at the input `"100"`. -/
theorem parse_amount_behavior_witness :
    0 ≤ (Dec.mk 10000 2).toRat ∧ (Dec.mk 10000 2).exp = 2 :=
  parse_amount_behavior.2.2.2.2.2.2.2.2 "100" ⟨10000, 2⟩ (by decide)

/-- **C6 counterexample.** The claim "every value `parse_amount` returns is
strictly positive" fails: `"0.001"` parses to the positive decimal 0.001,
survives the `<= 0` rejection, and is then quantized to 0.00 — a returned
value whose rational value is 0, not strictly positive. -/
theorem parse_amount_not_strictly_positive :
    parse_amount "0.001" = some ⟨0, 2⟩ ∧ ¬ 0 < (Dec.mk 0 2).toRat := by
  refine ⟨by decide, ?_⟩
  norm_num [Dec.toRat]

/-! ### Text utilities used by `split_tx_and_payout` (bot.py 329-349) -/

/-- `str.strip()` on a character list. -/
def trimChars (l : List Char) : List Char :=
  ((l.dropWhile Char.isWhitespace).reverse.dropWhile Char.isWhitespace).reverse

/-- `str.strip()`. -/
def strip (s : String) : String := ⟨trimChars s.toList⟩

/-- `str.splitlines()` (modelled as splitting at `\n`; a `\r` of a CRLF
pair is removed by the per-line `strip` that every caller applies). -/
def splitLinesChars (l : List Char) : List (List Char) :=
  l.foldr
    (fun c acc =>
      if c = '\n' then [] :: acc else (c :: acc.headD []) :: acc.tail)
    [[]]

/-- `str.lower()`, on the alphabets the labels use: ASCII `A-Z` and the
Cyrillic range `А-Я` / `Ё` (Python's `lower` covers all of Unicode; only
these letters can affect a label comparison). -/
def pyLowerChar (c : Char) : Char :=
  if 65 ≤ c.toNat && c.toNat ≤ 90 then Char.ofNat (c.toNat + 32)
  else if 0x410 ≤ c.toNat && c.toNat ≤ 0x42F then Char.ofNat (c.toNat + 0x20)
  else if c.toNat = 0x401 then Char.ofNat 0x451
  else c

/-- `str.lower()`. -/
def lowerStr (s : String) : String := ⟨s.toList.map pyLowerChar⟩

/-- `s.startswith(p)`. -/
def strStarts (s p : String) : Bool := List.isPrefixOf p.toList s.toList

/-- `line.split(":", 1)`: the part before and after the first colon. -/
def splitFirstColon : List Char → Option (List Char × List Char)
  | [] => none
  | c :: r =>
    if c = ':' then some ([], r)
    else (splitFirstColon r).map fun p => (c :: p.1, p.2)

/-- `line.split(":", 1)[1].strip() if ":" in line else line`. -/
def afterColon (line : String) : String :=
  match splitFirstColon line.toList with
  | some p => strip ⟨p.2⟩
  | none => line

/-- The payout labels of bot.py line 341. -/
def payoutLabels : List String := ["выплата:", "карта:", "переводилка:", "payout:"]

/-- The transaction labels of bot.py line 343. -/
def txLabels : List String := ["tx:", "hash:", "хеш:", "хэш:"]

/-- `line.lower().startswith(("выплата:", "карта:", "переводилка:", "payout:"))`. -/
def isPayoutLine (line : String) : Bool :=
  payoutLabels.any fun p => strStarts (lowerStr line) p

/-- `line.lower().startswith(("tx:", "hash:", "хеш:", "хэш:"))`. -/
def isTxLine (line : String) : Bool :=
  txLabels.any fun p => strStarts (lowerStr line) p

/-- The `for line in lines` loop of bot.py 339-344: the payout branch is
checked first, later labelled lines overwrite earlier ones. -/
def scanLines : String × String → List String → String × String
  | acc, [] => acc
  | acc, l :: ls =>
    scanLines
      (if isPayoutLine l then (acc.1, afterColon l)
        else if isTxLine l then (afterColon l, acc.2)
        else acc) ls

/-- `lines = [x.strip() for x in t.splitlines() if x.strip()]`. -/
def processLines (t : String) : List String :=
  ((splitLinesChars t.toList).map fun l => strip ⟨l⟩).filter fun x => !(x == "")

/-- `split_tx_and_payout` (bot.py 329-349): returns `(tx, payout)`; a
single unlabelled line is treated as the transaction reference. -/
def split_tx_and_payout (text : String) : String × String :=
  let t := strip text
  if t = "" then ("", "")
  else
    let lines := processLines t
    let tp := scanLines ("", "") lines
    if tp.1 = "" ∧ lines.length = 1 then (lines.headD "", tp.2) else tp

example : split_tx_and_payout "TX: abcd1234\nВыплата: Card 1234" =
    ("abcd1234", "Card 1234") := by decide
example : split_tx_and_payout "hash九" = ("hash九", "") := by decide
example : split_tx_and_payout "  Payout: Card 1234  " =
    ("Payout: Card 1234", "Card 1234") := by decide
example : split_tx_and_payout "скрин приложен\nкарта: 2200 1234" =
    ("", "2200 1234") := by decide
example : split_tx_and_payout "abc\ndef" = ("", "") := by decide
example : split_tx_and_payout "" = ("", "") := by decide

/-! ### Conversation sessions (`telebot` state storage + draft data) -/

/-- The `OrderStates` group (bot.py 78-83). -/
inductive ConvState
  | action
  | amount
  | crypto
  | buyMethod
  | waitTx
deriving DecidableEq

/-- The draft fields the buy/sell flow accumulates in `retrieve_data`. -/
structure Draft where
  action : Option String := none
  amount : Option Dec := none
  crypto : Option String := none
deriving DecidableEq

/-- One user's conversation record: the FSM state (`none` = no state) and
the draft.  `bot.delete_state` discards both. -/
structure Session where
  state : Option ConvState := none
  draft : Draft := {}
deriving DecidableEq

/-! ### The orders ledger -/

/-- A row of the `orders` table (bot.py 107-120), minus the timestamp.
`amount` is stored by the bot as `str(amt)`; it is modelled at its decimal
value. -/
structure Order where
  user_id : Int
  username : Option String
  full_name : String
  action : String
  amount : Dec
  crypto : String
  tx_info : String
  status : String
deriving DecidableEq

/-- The `orders` table: rows keyed by the autoincrement primary key. -/
abbrev Ledger := List (Nat × Order)

/-- A Telegram user as the handlers see it (`full_name` stands for the
`first_name`/`last_name` combination the bot formats). -/
structure TgUser where
  id : Int
  username : Option String
  full_name : String
deriving DecidableEq

/-- The next `AUTOINCREMENT` id. -/
def nextOrderId (db : Ledger) : Nat :=
  (db.map Prod.fst).foldr max 0 + 1

/-- `db_create_order` (bot.py 198-208): insert a `pending` row, return its
id. -/
def db_create_order (db : Ledger) (u : TgUser) (action : String) (amount : Dec)
    (crypto : String) (tx_info : String) : Ledger × Nat :=
  let oid := nextOrderId db
  (db ++ [(oid, ⟨u.id, u.username, u.full_name, action, amount, crypto, tx_info, "pending"⟩)],
    oid)

/-- The two message shapes `receive_tx` accepts (`content_types=["text",
"photo"]`). -/
inductive MsgContent
  | text (s : String)
  | photo (fileId : String) (caption : Option String)
deriving DecidableEq

/-- Observable outcome of `receive_tx`. -/
inductive RxOutcome
  | lost
  | needPayout
  | created (oid : Nat) (tx_text : String) (payout : String)
deriving DecidableEq

/-- `receive_tx` (bot.py 907-965): requires a complete sell draft; extracts
`(tx, payout)` from the text or the photo caption; without payout data it
re-prompts leaving everything unchanged; otherwise it inserts one pending
order and clears the session. -/
def receive_tx (db : Ledger) (u : TgUser) (sess : Session) (content : MsgContent) :
    Ledger × Session × RxOutcome :=
  match sess.draft.amount, sess.draft.crypto with
  | some amount, some crypto =>
    if sess.draft.action = some "sell" then
      let tpi : String × String × String :=
        match content with
        | .text s => ((split_tx_and_payout s).1, (split_tx_and_payout s).2, strip s)
        | .photo fileId caption =>
          let cap := strip (caption.getD "")
          ((split_tx_and_payout cap).1, (split_tx_and_payout cap).2,
            "photo:" ++ fileId ++ (if cap = "" then "" else "\n" ++ cap))
      if tpi.2.1 = "" then (db, sess, .needPayout)
      else
        let created := db_create_order db u "sell" amount crypto tpi.2.2
        (created.1, {}, .created created.2 tpi.1 tpi.2.1)
    else (db, {}, .lost)
  | _, _ => (db, {}, .lost)

/-! ### Lemmas about payout extraction -/

theorem scanLines_snd_no_payout (L : List String)
    (h : ∀ l ∈ L, isPayoutLine l = false) :
    ∀ a b, (scanLines (a, b) L).2 = b := by
  induction L with
  | nil => intro a b; rfl
  | cons l ls ih =>
    intro a b
    have hl : isPayoutLine l = false := h l (by simp)
    have hrest : ∀ x ∈ ls, isPayoutLine x = false := fun x hx => h x (by simp [hx])
    simp only [scanLines, hl, Bool.false_eq_true, if_false]
    by_cases ht : isTxLine l
    · simp only [ht, if_true]
      exact ih hrest _ _
    · simp only [ht, if_false]
      exact ih hrest a b

theorem scanLines_snd_payout_found (L1 L2 : List String) (p : String)
    (hp : isPayoutLine p = true) (h2 : ∀ l ∈ L2, isPayoutLine l = false) :
    ∀ a b, (scanLines (a, b) (L1 ++ p :: L2)).2 = afterColon p := by
  induction L1 with
  | nil =>
    intro a b
    simp only [List.nil_append, scanLines, hp, if_true]
    exact scanLines_snd_no_payout L2 h2 a (afterColon p)
  | cons l ls ih =>
    intro a b
    simp only [List.cons_append, scanLines]
    exact ih _ _

theorem split_tx_and_payout_snd_empty (s : String)
    (h : ∀ l ∈ processLines (strip s), isPayoutLine l = false) :
    (split_tx_and_payout s).2 = "" := by
  simp only [split_tx_and_payout]
  by_cases h0 : strip s = ""
  · rw [if_pos h0]
  · rw [if_neg h0]
    have hn := scanLines_snd_no_payout (processLines (strip s)) h "" ""
    by_cases h1 : (scanLines ("", "") (processLines (strip s))).1 = "" ∧
        (processLines (strip s)).length = 1
    · rw [if_pos h1]
      exact hn
    · rw [if_neg h1]
      exact hn

/-- **C2.** The payout gate of the sell-proof state: with a complete sell
draft, a text (or photo-caption) submission from which no payout can be
extracted creates no order and leaves the ledger and session untouched; no
payout is extracted whenever no line carries a recognized payout label; a
`"Выплата: Card 1234"` / `"Payout: Card 1234"` line is extracted at any
position (when no later line re-labels the payout); and the concrete
submissions of the claim each create exactly one pending order whose
`tx_info` is the full submission — both the transaction reference and the
payout line. -/
theorem receive_tx_payout_gate (db : Ledger) (u : TgUser) (amt : Dec) (cr : String) :
    (∀ body : String, (split_tx_and_payout body).2 = "" →
      receive_tx db u ⟨some .waitTx, some "sell", some amt, some cr⟩ (.text body) =
        (db, ⟨some .waitTx, some "sell", some amt, some cr⟩, .needPayout)) ∧
    (∀ (pid : String) (cap : Option String),
      (split_tx_and_payout (strip (cap.getD ""))).2 = "" →
      receive_tx db u ⟨some .waitTx, some "sell", some amt, some cr⟩ (.photo pid cap) =
        (db, ⟨some .waitTx, some "sell", some amt, some cr⟩, .needPayout)) ∧
    (∀ s : String, (∀ l ∈ processLines (strip s), isPayoutLine l = false) →
      (split_tx_and_payout s).2 = "") ∧
    (∀ L1 L2 : List String, (∀ l ∈ L2, isPayoutLine l = false) →
      (scanLines ("", "") (L1 ++ "Выплата: Card 1234" :: L2)).2 = "Card 1234" ∧
      (scanLines ("", "") (L1 ++ "Payout: Card 1234" :: L2)).2 = "Card 1234") ∧
    (receive_tx db u ⟨some .waitTx, some "sell", some amt, some cr⟩
        (.text "TX: abcd1234\nВыплата: Card 1234") =
      (db ++ [(nextOrderId db, ⟨u.id, u.username, u.full_name, "sell", amt, cr,
          "TX: abcd1234\nВыплата: Card 1234", "pending"⟩)], {},
        .created (nextOrderId db) "abcd1234" "Card 1234")) ∧
    (receive_tx db u ⟨some .waitTx, some "sell", some amt, some cr⟩
        (.text "TX: abcd1234\nPayout: Card 1234") =
      (db ++ [(nextOrderId db, ⟨u.id, u.username, u.full_name, "sell", amt, cr,
          "TX: abcd1234\nPayout: Card 1234", "pending"⟩)], {},
        .created (nextOrderId db) "abcd1234" "Card 1234")) ∧
    (∀ pid : String,
      receive_tx db u ⟨some .waitTx, some "sell", some amt, some cr⟩
          (.photo pid (some "Выплата: Card 1234")) =
        (db ++ [(nextOrderId db, ⟨u.id, u.username, u.full_name, "sell", amt, cr,
            "photo:" ++ pid ++ "\nВыплата: Card 1234", "pending"⟩)], {},
          .created (nextOrderId db) "Выплата: Card 1234" "Card 1234")) := by
  refine ⟨?_, ?_, split_tx_and_payout_snd_empty, ?_, ?_, ?_, ?_⟩
  · intro body h
    simp [receive_tx, h]
  · intro pid cap h
    simp [receive_tx, h]
  · intro L1 L2 h2
    constructor
    · rw [scanLines_snd_payout_found L1 L2 _ (by decide) h2]
      decide
    · rw [scanLines_snd_payout_found L1 L2 _ (by decide) h2]
      decide
  · have hs : split_tx_and_payout "TX: abcd1234\nВыплата: Card 1234" =
        ("abcd1234", "Card 1234") := by decide
    have ht : strip "TX: abcd1234\nВыплата: Card 1234" =
        "TX: abcd1234\nВыплата: Card 1234" := by decide
    simp only [receive_tx, hs, ht, db_create_order]
    norm_num
    decide
  · have hs : split_tx_and_payout "TX: abcd1234\nPayout: Card 1234" =
        ("abcd1234", "Card 1234") := by decide
    have ht : strip "TX: abcd1234\nPayout: Card 1234" =
        "TX: abcd1234\nPayout: Card 1234" := by decide
    simp only [receive_tx, hs, ht, db_create_order]
    norm_num
    decide
  · intro pid
    have hs : split_tx_and_payout "Выплата: Card 1234" =
        ("Выплата: Card 1234", "Card 1234") := by decide
    have ht : strip "Выплата: Card 1234" = "Выплата: Card 1234" := by decide
    simp only [receive_tx, Option.getD, ht, hs, db_create_order]
    rw [if_neg (show ¬("Card 1234" = "") by decide),
      show ("\n" ++ "Выплата: Card 1234") = "\nВыплата: Card 1234" by decide,
      if_neg (show ¬("Выплата: Card 1234" = "") by decide)]
    simp

/-- Witness for C2: a labelless submission is rejected in place; the
claim's example submission creates one pending order. -/
theorem receive_tx_payout_gate_witness :
    receive_tx [] ⟨7, none, "Neo"⟩ ⟨some .waitTx, some "sell", some ⟨10000, 2⟩, some "LTC"⟩
        (.text "abc\ndef") =
      ([], ⟨some .waitTx, some "sell", some ⟨10000, 2⟩, some "LTC"⟩, .needPayout) ∧
    receive_tx [] ⟨7, none, "Neo"⟩ ⟨some .waitTx, some "sell", some ⟨10000, 2⟩, some "LTC"⟩
        (.text "TX: abcd1234\nВыплата: Card 1234") =
      ([] ++ [(nextOrderId [], ⟨7, none, "Neo", "sell", ⟨10000, 2⟩, "LTC",
          "TX: abcd1234\nВыплата: Card 1234", "pending"⟩)], {},
        .created (nextOrderId []) "abcd1234" "Card 1234") :=
  ⟨(receive_tx_payout_gate [] ⟨7, none, "Neo"⟩ ⟨10000, 2⟩ "LTC").1 "abc\ndef" (by decide),
    (receive_tx_payout_gate [] ⟨7, none, "Neo"⟩ ⟨10000, 2⟩ "LTC").2.2.2.2.1⟩

/-! ### The amount state (`handle_amount`, bot.py 729-786) -/

/-- `db_count_approved_buys` (bot.py 225-232):
`COUNT(*) WHERE user_id = ? AND action = 'buy' AND status = 'approved'`. -/
def db_count_approved_buys (db : Ledger) (uid : Int) : Nat :=
  db.countP fun p =>
    p.2.user_id == uid && p.2.action == "buy" && p.2.status == "approved"

/-- Observable outcome of `handle_amount`: the re-prompts, the lost-draft
reset, or the displayed quote (for a buy, the amount payable and the
disclosed discount). -/
inductive AmountOutcome
  | invalid
  | belowMin
  | lost
  | quoteBuy (pay : ℤ) (discount : ℤ)
  | quoteSell (rub : ℤ)
deriving DecidableEq

/-- `handle_amount` (bot.py 729-786).  A failed parse — or a falsy result:
`if not amt` also catches `Decimal("0.00")` — re-prompts with no change; an
amount below `min_usd` re-prompts with no change; a draft without a
buy/sell action is dropped; otherwise the amount is written to the draft,
the quote (with the loyalty discount, recomputed from the ledger, on the
buy path only) is displayed and the state advances to crypto selection. -/
def handle_amount (db : Ledger) (st : Settings) (uid : Int) (sess : Session)
    (text : String) : Session × AmountOutcome :=
  match parse_amount text with
  | none => (sess, .invalid)
  | some amt =>
    if amt.mant = 0 then (sess, .invalid)
    else if amt.lt st.min_usd then (sess, .belowMin)
    else
      match sess.draft.action with
      | some a =>
        if a = "buy" ∨ a = "sell" then
          let sess2 : Session :=
            { state := some .crypto, draft := { sess.draft with amount := some amt } }
          let rub := calc_rub st a amt
          if a = "buy" then
            let discount : ℤ :=
              if BONUS_BUY_AFTER ≤ db_count_approved_buys db uid then
                BONUS_DISCOUNT_RUB
              else 0
            (sess2, .quoteBuy (if 0 < discount then max 0 (rub - discount) else rub) discount)
          else (sess2, .quoteSell rub)
        else ({}, .lost)
      | none => ({}, .lost)

/-- **C7.** In the amount state, a successfully parsed positive amount
below `min_usd` is rejected with a re-prompt: the session — state and
draft — is returned unchanged. -/
theorem handle_amount_below_min (db : Ledger) (st : Settings) (uid : Int)
    (sess : Session) (text : String) (amt : Dec)
    (_hstate : sess.state = some ConvState.amount)
    (hparse : parse_amount text = some amt) (hpos : 0 < amt.toRat)
    (hmin : amt.toRat < st.min_usd.toRat) :
    handle_amount db st uid sess text = (sess, .belowMin) := by
  have hm : 0 < amt.mant := by
    have h0 : (Dec.mk 0 0).toRat = 0 := by norm_num [Dec.toRat]
    have hl := (Dec.lt_iff ⟨0, 0⟩ amt).mpr (by rw [h0]; exact hpos)
    unfold Dec.lt at hl
    simpa using hl
  have hlt : amt.lt st.min_usd := (Dec.lt_iff amt st.min_usd).mpr hmin
  simp only [handle_amount, hparse]
  rw [if_neg (by omega), if_pos hlt]

/-- Witness for C7: amount 5 against the default minimum 10. -/
theorem handle_amount_below_min_witness :
    handle_amount [] ⟨⟨186, 1⟩, ⟨165, 1⟩, ⟨1000, 2⟩, none⟩ 7
        ⟨some .amount, some "buy", none, none⟩ "5" =
      (⟨some .amount, some "buy", none, none⟩, .belowMin) :=
  handle_amount_below_min [] ⟨⟨186, 1⟩, ⟨165, 1⟩, ⟨1000, 2⟩, none⟩ 7
    ⟨some .amount, some "buy", none, none⟩ "5" ⟨500, 2⟩ rfl (by decide)
    (by norm_num [Dec.toRat]) (by norm_num [Dec.toRat])

/-- **C4.** The loyalty discount: with an accepted buy amount, a user whose
current count of approved buy orders is at least 5 is quoted
`max 0 (quote - 20)` with the 20-unit discount disclosed; a user with
exactly 4 gets the plain quote and no discount; the sell path never
discounts; and the eligibility count is taken from the ledger passed at
computation time — equal counts give equal results, and a newly approved
buy order raises the next computation's count by one. -/
theorem handle_amount_bonus (db : Ledger) (st : Settings) (uid : Int)
    (sess : Session) (text : String) (amt : Dec)
    (hparse : parse_amount text = some amt) (hnz : ¬ amt.mant = 0)
    (hminq : ¬ amt.toRat < st.min_usd.toRat) :
    (sess.draft.action = some "buy" → 5 ≤ db_count_approved_buys db uid →
      handle_amount db st uid sess text =
        ({ state := some .crypto, draft := { sess.draft with amount := some amt } },
          .quoteBuy (max 0 (calc_rub st "buy" amt - 20)) 20)) ∧
    (sess.draft.action = some "buy" → db_count_approved_buys db uid = 4 →
      handle_amount db st uid sess text =
        ({ state := some .crypto, draft := { sess.draft with amount := some amt } },
          .quoteBuy (calc_rub st "buy" amt) 0)) ∧
    (sess.draft.action = some "sell" →
      handle_amount db st uid sess text =
        ({ state := some .crypto, draft := { sess.draft with amount := some amt } },
          .quoteSell (calc_rub st "sell" amt))) ∧
    (∀ db2 : Ledger, db_count_approved_buys db2 uid = db_count_approved_buys db uid →
      handle_amount db2 st uid sess text = handle_amount db st uid sess text) ∧
    (∀ (oid : Nat) (o : Order), o.user_id = uid → o.action = "buy" →
      o.status = "approved" →
      db_count_approved_buys (db ++ [(oid, o)]) uid =
        db_count_approved_buys db uid + 1) := by
  have hmin : ¬ amt.lt st.min_usd := fun hc => hminq ((Dec.lt_iff amt st.min_usd).mp hc)
  refine ⟨?_, ?_, ?_, ?_, ?_⟩
  · intro ha h5
    simp [handle_amount, hparse, ha, hnz, hmin, BONUS_BUY_AFTER, BONUS_DISCOUNT_RUB, h5]
  · intro ha h4
    simp [handle_amount, hparse, ha, hnz, hmin, BONUS_BUY_AFTER, BONUS_DISCOUNT_RUB, h4]
  · intro ha
    simp [handle_amount, hparse, ha, hnz, hmin]
  · intro db2 h
    simp only [handle_amount, h]
  · intro oid o h1 h2 h3
    simp [db_count_approved_buys, List.countP_append, List.countP_cons, h1, h2, h3]

/-- Witness for C4: with five approved buys on the ledger, amount 100 at
buy rate 18.6 is quoted 1840 after the 20-unit discount; with four, 1860. -/
theorem handle_amount_bonus_witness :
    handle_amount
        [(1, ⟨7, none, "N", "buy", ⟨100, 0⟩, "LTC", "t", "approved"⟩),
          (2, ⟨7, none, "N", "buy", ⟨100, 0⟩, "LTC", "t", "approved"⟩),
          (3, ⟨7, none, "N", "buy", ⟨100, 0⟩, "LTC", "t", "approved"⟩),
          (4, ⟨7, none, "N", "buy", ⟨100, 0⟩, "LTC", "t", "approved"⟩),
          (5, ⟨7, none, "N", "buy", ⟨100, 0⟩, "LTC", "t", "approved"⟩)]
        ⟨⟨186, 1⟩, ⟨165, 1⟩, ⟨1000, 2⟩, none⟩ 7 ⟨some .amount, some "buy", none, none⟩
        "100" =
      (⟨some .crypto, some "buy", some ⟨10000, 2⟩, none⟩, .quoteBuy 1840 20) ∧
    handle_amount
        [(1, ⟨7, none, "N", "buy", ⟨100, 0⟩, "LTC", "t", "approved"⟩),
          (2, ⟨7, none, "N", "buy", ⟨100, 0⟩, "LTC", "t", "approved"⟩),
          (3, ⟨7, none, "N", "buy", ⟨100, 0⟩, "LTC", "t", "approved"⟩),
          (4, ⟨7, none, "N", "buy", ⟨100, 0⟩, "LTC", "t", "approved"⟩)]
        ⟨⟨186, 1⟩, ⟨165, 1⟩, ⟨1000, 2⟩, none⟩ 7 ⟨some .amount, some "buy", none, none⟩
        "100" =
      (⟨some .crypto, some "buy", some ⟨10000, 2⟩, none⟩, .quoteBuy 1860 0) :=
  ⟨(handle_amount_bonus _ ⟨⟨186, 1⟩, ⟨165, 1⟩, ⟨1000, 2⟩, none⟩ 7
      ⟨some .amount, some "buy", none, none⟩ "100" ⟨10000, 2⟩ (by decide) (by decide)
      (by norm_num [Dec.toRat])).1 rfl (by decide),
    (handle_amount_bonus _ ⟨⟨186, 1⟩, ⟨165, 1⟩, ⟨1000, 2⟩, none⟩ 7
      ⟨some .amount, some "buy", none, none⟩ "100" ⟨10000, 2⟩ (by decide) (by decide)
      (by norm_num [Dec.toRat])).2.1 rfl (by decide)⟩

/-! ### Crypto selection (`select_crypto`, bot.py 789-827) -/

/-- A generic split at a separator character (`str.split(sep)`). -/
def splitOnCh (sep : Char) (l : List Char) : List (List Char) :=
  l.foldr
    (fun c acc =>
      if c = sep then [] :: acc else (c :: acc.headD []) :: acc.tail)
    [[]]

/-- `get_enabled_cryptos` (bot.py 302-306): read the `cryptos` setting
(falling back to the default when the row is absent, `NULL` or the empty
string), split on commas, strip and drop empties, keep allowed codes, and
fall back to the full list when nothing remains. -/
def get_enabled_cryptos (cryptosSetting : Option String) : List String :=
  let raw := match cryptosSetting with
    | none => DEFAULT_CRYPTOS
    | some v => if v = "" then DEFAULT_CRYPTOS else v
  let items := ((splitOnCh ',' raw.toList).map fun l => strip ⟨l⟩).filter
    fun x => !(x == "")
  let items2 := items.filter fun x => ALLOWED_CRYPTOS.contains x
  if items2.isEmpty then ["USDT_TRON", "LTC"] else items2

example : get_enabled_cryptos none = ["USDT_TRON", "LTC"] := by decide
example : get_enabled_cryptos (some "USDT_TRON") = ["USDT_TRON"] := by decide
example : get_enabled_cryptos (some " LTC , USDT_TRON ") = ["LTC", "USDT_TRON"] := by decide
example : get_enabled_cryptos (some "DOGE") = ["USDT_TRON", "LTC"] := by decide
example : get_enabled_cryptos (some "") = ["USDT_TRON", "LTC"] := by decide

/-- Observable outcome of `select_crypto`. -/
inductive SelOutcome
  | invalidChoice
  | toBuyMethod
  | showWallet
deriving DecidableEq

/-- `select_crypto` (bot.py 789-827): a code outside the currently enabled
set is answered "Неверный выбор" with no other effect; otherwise the code
is written to the draft and the flow branches on the action (`buy` advances
to the payment-method state, anything else shows the wallet and stays). -/
def select_crypto (st : Settings) (sess : Session) (code : String) :
    Session × SelOutcome :=
  if code ∉ get_enabled_cryptos st.cryptos then (sess, .invalidChoice)
  else
    let d := { sess.draft with crypto := some code }
    if sess.draft.action = some "buy" then
      ({ state := some .buyMethod, draft := d }, .toBuyMethod)
    else ({ sess with draft := d }, .showWallet)

/-- **C8.** In the crypto state, a selection whose code is not in the
enabled set read from the current settings is rejected, leaving state and
draft untouched — and a code (here `"LTC"`) enabled under earlier settings
is still rejected once the current setting drops it. -/
theorem select_crypto_enabled_gate (st : Settings) (sess : Session) (code : String)
    (_hstate : sess.state = some ConvState.crypto)
    (hmem : code ∉ get_enabled_cryptos st.cryptos) :
    select_crypto st sess code = (sess, .invalidChoice) ∧
    "LTC" ∈ get_enabled_cryptos none ∧
    "LTC" ∉ get_enabled_cryptos (some "USDT_TRON") := by
  refine ⟨?_, by decide, by decide⟩
  simp only [select_crypto, if_pos hmem]

/-- Witness for C8: `"LTC"` is enabled by default but rejected once the
setting reads `"USDT_TRON"`. -/
theorem select_crypto_enabled_gate_witness :
    select_crypto ⟨⟨186, 1⟩, ⟨165, 1⟩, ⟨1000, 2⟩, some "USDT_TRON"⟩
        ⟨some .crypto, some "sell", some ⟨10000, 2⟩, none⟩ "LTC" =
      (⟨some .crypto, some "sell", some ⟨10000, 2⟩, none⟩, .invalidChoice) :=
  (select_crypto_enabled_gate ⟨⟨186, 1⟩, ⟨165, 1⟩, ⟨1000, 2⟩, some "USDT_TRON"⟩
    ⟨some .crypto, some "sell", some ⟨10000, 2⟩, none⟩ "LTC" rfl (by decide)).1

/-! ### The users table (bot.py 121-195) -/

/-- A row of the `users` table, minus the primary key. -/
structure UserRow where
  username : Option String
  full_name : String
  first_seen : Nat
  last_seen : Nat
  blocked : Bool
deriving DecidableEq

/-- The `users` table: rows keyed by `user_id`. -/
abbrev UserDb := List (Int × UserRow)

/-- `SELECT ... FROM users WHERE user_id = ?`. -/
def db_lookup_user (db : UserDb) (uid : Int) : Option UserRow :=
  (db.find? fun p => p.1 == uid).map Prod.snd

/-- The `DO UPDATE SET username, full_name, last_seen` clause of the
upsert, applied to one row. -/
def upsertRow (username : Option String) (full_name : String) (now : Nat)
    (r : UserRow) : UserRow :=
  { r with username := username, full_name := full_name, last_seen := now }

/-- The `SET blocked = ?, last_seen = ?` clause of `db_set_user_blocked`,
applied to one row. -/
def blockRow (b : Bool) (now : Nat) (r : UserRow) : UserRow :=
  { r with blocked := b, last_seen := now }

/-- `db_upsert_user` (bot.py 157-170): `INSERT ... VALUES (..., blocked=0)
ON CONFLICT(user_id) DO UPDATE SET username, full_name, last_seen` — the
conflict branch touches neither `first_seen` nor `blocked`. -/
def db_upsert_user (db : UserDb) (uid : Int) (username : Option String)
    (full_name : String) (now : Nat) : UserDb :=
  if db.any fun p => p.1 == uid then
    db.map fun p => if p.1 = uid then (p.1, upsertRow username full_name now p.2) else p
  else db ++ [(uid, ⟨username, full_name, now, now, false⟩)]

/-- `db_set_user_blocked` (bot.py 172-179):
`UPDATE users SET blocked = ?, last_seen = ? WHERE user_id = ?`. -/
def db_set_user_blocked (db : UserDb) (uid : Int) (b : Bool) (now : Nat) : UserDb :=
  db.map fun p => if p.1 = uid then (p.1, blockRow b now p.2) else p

/-- Number of rows carrying a given `user_id` (the table's primary key
keeps it at most 1; the model proves it). -/
def countUser (db : UserDb) (uid : Int) : Nat :=
  db.countP fun p => p.1 == uid

/-- The `blocked` column of a user's row. -/
def userBlocked (db : UserDb) (uid : Int) : Option Bool :=
  (db_lookup_user db uid).map (·.blocked)

/-- An inbound event as the update listener sees it: the profile fields it
upserts (bot.py 503-511). -/
structure UpsertEv where
  uid : Int
  username : Option String
  full_name : String
  now : Nat

/-- Folding a whole sequence of inbound events into the users table. -/
def applyUpserts (db : UserDb) (evs : List UpsertEv) : UserDb :=
  evs.foldl (fun d e => db_upsert_user d e.uid e.username e.full_name e.now) db

/-! #### Association-list lemmas for the users table -/

theorem db_lookup_user_cons (p : Int × UserRow) (db : UserDb) (uid : Int) :
    db_lookup_user (p :: db) uid =
      if p.1 = uid then some p.2 else db_lookup_user db uid := by
  by_cases hk : p.1 = uid
  · simp [db_lookup_user, List.find?_cons_of_pos _ (show (p.1 == uid) = true by simp [hk]), hk]
  · simp [db_lookup_user, List.find?_cons_of_neg _ (show ¬(p.1 == uid) = true by simp [hk]), hk]

theorem userdb_any_eq_isSome (db : UserDb) (uid : Int) :
    (db.any fun p => p.1 == uid) = (db_lookup_user db uid).isSome := by
  induction db with
  | nil => rfl
  | cons h t ih =>
    by_cases hk : h.1 = uid
    · simp [db_lookup_user_cons, hk]
    · simp [db_lookup_user_cons, hk, ih]

theorem userdb_lookup_map_upd (db : UserDb) (uid : Int) (g : UserRow → UserRow) :
    db_lookup_user
        (db.map fun p => if p.1 = uid then (p.1, g p.2) else p) uid =
      (db_lookup_user db uid).map g := by
  induction db with
  | nil => rfl
  | cons h t ih =>
    by_cases hk : h.1 = uid
    · simp [db_lookup_user_cons, hk]
    · simp [db_lookup_user_cons, hk, ih]

theorem userdb_lookup_map_other (db : UserDb) (uid : Int) (g : UserRow → UserRow)
    (k : Int) (hne : ¬ k = uid) :
    db_lookup_user
        (db.map fun p => if p.1 = uid then (p.1, g p.2) else p) k =
      db_lookup_user db k := by
  induction db with
  | nil => rfl
  | cons h t ih =>
    have hku : ¬ uid = k := fun hh => hne hh.symm
    by_cases huid : h.1 = uid
    · have hk : ¬ h.1 = k := by
        rw [huid]
        exact hku
      simp [db_lookup_user_cons, huid, hk, hku, ih]
    · by_cases hk : h.1 = k
      · simp [db_lookup_user_cons, huid, hk, hne, hku]
      · simp [db_lookup_user_cons, huid, hk, hne, hku, ih]

theorem userdb_lookup_append_of_none (db l : UserDb) (uid : Int)
    (h : db_lookup_user db uid = none) :
    db_lookup_user (db ++ l) uid = db_lookup_user l uid := by
  induction db with
  | nil => rfl
  | cons hd t ih =>
    rw [db_lookup_user_cons] at h
    by_cases hk : hd.1 = uid
    · simp [hk] at h
    · simp only [hk, if_false] at h
      simp [List.cons_append, db_lookup_user_cons, hk, ih h]

theorem userdb_lookup_append_of_some (db l : UserDb) (uid : Int) (r : UserRow)
    (h : db_lookup_user db uid = some r) :
    db_lookup_user (db ++ l) uid = some r := by
  induction db with
  | nil => simp [db_lookup_user] at h
  | cons hd t ih =>
    rw [db_lookup_user_cons] at h
    by_cases hk : hd.1 = uid
    · simp only [hk, if_true] at h
      simp [List.cons_append, db_lookup_user_cons, hk, h]
    · simp only [hk, if_false] at h
      simp [List.cons_append, db_lookup_user_cons, hk, ih h]

theorem userdb_count_map_upd (db : UserDb) (uid : Int) (g : UserRow → UserRow)
    (k : Int) :
    countUser (db.map fun p => if p.1 = uid then (p.1, g p.2) else p) k =
      countUser db k := by
  induction db with
  | nil => rfl
  | cons h t ih =>
    simp only [countUser] at ih
    by_cases hk : h.1 = uid
    · simp only [List.map_cons, if_pos hk, countUser, List.countP_cons, ih]
    · simp only [List.map_cons, if_neg hk, countUser, List.countP_cons, ih]

theorem userdb_count_none_zero (db : UserDb) (uid : Int)
    (h : db_lookup_user db uid = none) : countUser db uid = 0 := by
  induction db with
  | nil => rfl
  | cons hd t ih =>
    rw [db_lookup_user_cons] at h
    by_cases hk : hd.1 = uid
    · simp [hk] at h
    · simp only [hk, if_false] at h
      simp only [countUser, List.countP_cons, show (hd.1 == uid) = false by simp [hk],
        if_false]
      simpa [countUser] using ih h

/-- **C9.** Upserting the same user id twice — the second time with new
profile fields — leaves exactly one row for that id; its username and
display name are those of the second upsert and its `first_seen` is the
timestamp recorded by the first (and `blocked` stays at its initial
`false`). -/
theorem db_upsert_user_idempotent (db : UserDb) (uid : Int)
    (u1 u2 : Option String) (f1 f2 : String) (t1 t2 : Nat)
    (habs : db_lookup_user db uid = none) :
    countUser (db_upsert_user (db_upsert_user db uid u1 f1 t1) uid u2 f2 t2) uid = 1 ∧
    db_lookup_user (db_upsert_user (db_upsert_user db uid u1 f1 t1) uid u2 f2 t2) uid =
      some ⟨u2, f2, t1, t2, false⟩ := by
  have hany : (db.any fun p => p.1 == uid) = false := by
    rw [userdb_any_eq_isSome, habs]
    rfl
  have hdb1 : db_upsert_user db uid u1 f1 t1 =
      db ++ [(uid, (⟨u1, f1, t1, t1, false⟩ : UserRow))] := by
    simp [db_upsert_user, hany]
  have hlook1 : db_lookup_user (db ++ [(uid, (⟨u1, f1, t1, t1, false⟩ : UserRow))]) uid =
      some (⟨u1, f1, t1, t1, false⟩ : UserRow) := by
    rw [userdb_lookup_append_of_none db _ uid habs]
    simp [db_lookup_user]
  have hany1 : ((db ++ [(uid, (⟨u1, f1, t1, t1, false⟩ : UserRow))]).any
      fun p => p.1 == uid) = true := by
    rw [userdb_any_eq_isSome, hlook1]
    rfl
  rw [hdb1]
  simp only [db_upsert_user, hany1, if_true]
  constructor
  · rw [userdb_count_map_upd]
    simp only [countUser, List.countP_append, List.countP_cons, List.countP_nil]
    have h0 : countUser db uid = 0 := userdb_count_none_zero db uid habs
    simp only [countUser] at h0
    simp [h0]
  · rw [userdb_lookup_map_upd, hlook1]
    rfl

/-- Witness for C9 on an initially empty table. -/
theorem db_upsert_user_idempotent_witness :
    countUser (db_upsert_user (db_upsert_user [] 7 (some "old") "Old N" 100)
        7 (some "new") "New N" 200) 7 = 1 ∧
    db_lookup_user (db_upsert_user (db_upsert_user [] 7 (some "old") "Old N" 100)
        7 (some "new") "New N" 200) 7 = some ⟨some "new", "New N", 100, 200, false⟩ :=
  db_upsert_user_idempotent [] 7 (some "old") (some "new") "Old N" "New N" 100 200 rfl

/-! #### The `blocked` column is a frame of the upsert -/

theorem userdb_blocked_map_upd (db : UserDb) (uid : Int) (g : UserRow → UserRow)
    (hg : ∀ r, (g r).blocked = r.blocked) (k : Int) :
    userBlocked (db.map fun p => if p.1 = uid then (p.1, g p.2) else p) k =
      userBlocked db k := by
  by_cases hk : k = uid
  · subst hk
    unfold userBlocked
    rw [userdb_lookup_map_upd]
    cases h : db_lookup_user db k with
    | none => rfl
    | some r => simp [hg]
  · rw [userBlocked, userdb_lookup_map_other db uid g k hk, ← userBlocked]

theorem upsert_step_blocked (db : UserDb) (uid : Int) (un : Option String)
    (fn : String) (now : Nat) (k : Int) (r : UserRow)
    (hk : db_lookup_user db k = some r) :
    userBlocked (db_upsert_user db uid un fn now) k = userBlocked db k ∧
    ∃ r2, db_lookup_user (db_upsert_user db uid un fn now) k = some r2 := by
  by_cases hany : (db.any fun p => p.1 == uid) = true
  · constructor
    · simp only [db_upsert_user, hany, if_true]
      exact userdb_blocked_map_upd db uid (upsertRow un fn now) (fun _ => rfl) k
    · simp only [db_upsert_user, hany, if_true]
      by_cases hku : k = uid
      · subst hku
        rw [userdb_lookup_map_upd, hk]
        exact ⟨_, rfl⟩
      · rw [userdb_lookup_map_other db uid _ k hku]
        exact ⟨r, hk⟩
  · have hfalse : (db.any fun p => p.1 == uid) = false := by
      simp only [Bool.not_eq_true] at hany
      exact hany
    constructor
    · simp only [db_upsert_user, hfalse, Bool.false_eq_true, if_false]
      unfold userBlocked
      rw [userdb_lookup_append_of_some db _ k r hk, hk]
    · simp only [db_upsert_user, hfalse, Bool.false_eq_true, if_false]
      exact ⟨r, userdb_lookup_append_of_some db _ k r hk⟩

/-- **C10.** The per-inbound-event upsert never modifies the `blocked`
column: one upsert on a present id leaves every user's flag as it was, any
sequence of inbound upserts leaves a present user's flag as it was, and
only `db_set_user_blocked` rewrites it (to the requested value). -/
theorem upsert_preserves_blocked (db : UserDb) (uid : Int) :
    (∀ (un : Option String) (fn : String) (now : Nat),
      (db.any fun p => p.1 == uid) = true →
      ∀ k, userBlocked (db_upsert_user db uid un fn now) k = userBlocked db k) ∧
    (∀ (evs : List UpsertEv) (r : UserRow), db_lookup_user db uid = some r →
      userBlocked (applyUpserts db evs) uid = userBlocked db uid) ∧
    (∀ (b : Bool) (now : Nat) (r : UserRow), db_lookup_user db uid = some r →
      userBlocked (db_set_user_blocked db uid b now) uid = some b) := by
  refine ⟨?_, ?_, ?_⟩
  · intro un fn now hany k
    simp only [db_upsert_user, hany, if_true]
    exact userdb_blocked_map_upd db uid (upsertRow un fn now) (fun _ => rfl) k
  · intro evs
    induction evs generalizing db with
    | nil => intro r _; rfl
    | cons e t ih =>
      intro r hr
      have hstep := upsert_step_blocked db e.uid e.username e.full_name e.now uid r hr
      obtain ⟨r2, hr2⟩ := hstep.2
      calc userBlocked (applyUpserts db (e :: t)) uid
          = userBlocked (applyUpserts (db_upsert_user db e.uid e.username e.full_name e.now) t) uid := rfl
        _ = userBlocked (db_upsert_user db e.uid e.username e.full_name e.now) uid := ih _ r2 hr2
        _ = userBlocked db uid := hstep.1
  · intro b now r hr
    rw [db_set_user_blocked, userBlocked, userdb_lookup_map_upd, hr]
    rfl

/-- Witness for C10: an upsert with a fresh username leaves a blocked
user blocked; `db_set_user_blocked` unblocks. -/
theorem upsert_preserves_blocked_witness :
    userBlocked (db_upsert_user [(7, ⟨some "u", "N", 1, 1, true⟩)] 7 (some "v") "M" 5) 7 =
      userBlocked [(7, ⟨some "u", "N", 1, 1, true⟩)] 7 ∧
    userBlocked (db_set_user_blocked [(7, ⟨some "u", "N", 1, 1, true⟩)] 7 false 9) 7 =
      some false :=
  ⟨(upsert_preserves_blocked [(7, ⟨some "u", "N", 1, 1, true⟩)] 7).1
      (some "v") "M" 5 (by decide) 7,
    (upsert_preserves_blocked [(7, ⟨some "u", "N", 1, 1, true⟩)] 7).2.2
      false 9 ⟨some "u", "N", 1, 1, true⟩ rfl⟩

/-! ### Operator decisions (`operator_decision`, bot.py 968-1000) -/

/-- `SELECT ... FROM orders WHERE id = ?` (bot.py 216-223). -/
def db_get_order (db : Ledger) (oid : Nat) : Option Order :=
  (db.find? fun p => p.1 == oid).map Prod.snd

/-- The `SET status = ?` clause of `db_update_status`, applied to one row. -/
def setStatus (status : String) (o : Order) : Order := { o with status := status }

/-- `db_update_status` (bot.py 210-214):
`UPDATE orders SET status = ? WHERE id = ?` — unconditional, whatever the
current status. -/
def db_update_status (db : Ledger) (oid : Nat) (status : String) : Ledger :=
  db.map fun p => if p.1 = oid then (p.1, setStatus status p.2) else p

/-- Observable outcome of `operator_decision`. -/
inductive DecOutcome
  | noRights
  | notFound
  | answered (status : String) (user_id : Int)
deriving DecidableEq

/-- `operator_decision` (bot.py 968-1000): non-operators are refused; an
unknown order id is answered "Заявка не найдена" with no write; otherwise
the status is set to `approved`/`rejected` and the submitter notified. -/
def operator_decision (opId callerId : Int) (db : Ledger) (action : String)
    (oid : Nat) : Ledger × DecOutcome :=
  if callerId ≠ opId then (db, .noRights)
  else
    match db_get_order db oid with
    | none => (db, .notFound)
    | some row =>
      let status := if action = "approve" then "approved" else "rejected"
      (db_update_status db oid status, .answered status row.user_id)

theorem db_get_order_cons (p : Nat × Order) (db : Ledger) (oid : Nat) :
    db_get_order (p :: db) oid =
      if p.1 = oid then some p.2 else db_get_order db oid := by
  by_cases hk : p.1 = oid
  · simp [db_get_order, List.find?_cons_of_pos _ (show (p.1 == oid) = true by simp [hk]), hk]
  · simp [db_get_order, List.find?_cons_of_neg _ (show ¬(p.1 == oid) = true by simp [hk]), hk]

theorem ledger_get_update (db : Ledger) (oid : Nat) (s : String) (row : Order)
    (h : db_get_order db oid = some row) :
    db_get_order (db_update_status db oid s) oid = some (setStatus s row) := by
  induction db with
  | nil => simp [db_get_order] at h
  | cons hd t ih =>
    rw [db_get_order_cons] at h
    by_cases hk : hd.1 = oid
    · simp only [hk, if_true] at h
      obtain rfl : hd.2 = row := Option.some.inj h
      simp [db_update_status, db_get_order_cons, hk]
    · simp only [hk, if_false] at h
      simp [db_update_status, db_get_order_cons, hk]
      have := ih h
      simpa [db_update_status] using this

/-- **C3.** An operator decision on an unknown order id reports not-found
and writes nothing; on an existing id it sets the status to `approved`
(approve) or `rejected` (reject) unconditionally; the stored status is what
every subsequent read returns, and a further decision — even on the
already-terminal order — silently overwrites it. -/
theorem operator_decision_lifecycle (opId : Int) (db : Ledger) (action : String)
    (oid : Nat) :
    (db_get_order db oid = none →
      operator_decision opId opId db action oid = (db, .notFound)) ∧
    (∀ row, db_get_order db oid = some row →
      operator_decision opId opId db action oid =
        (db_update_status db oid (if action = "approve" then "approved" else "rejected"),
          .answered (if action = "approve" then "approved" else "rejected") row.user_id) ∧
      (∀ s : String,
        db_get_order (db_update_status db oid s) oid = some { row with status := s }) ∧
      (∀ s1 s2 : String,
        db_get_order (db_update_status (db_update_status db oid s1) oid s2) oid =
          some { row with status := s2 })) := by
  constructor
  · intro h
    simp [operator_decision, h]
  · intro row h
    refine ⟨by simp [operator_decision, h], ?_, ?_⟩
    · intro s
      simpa [setStatus] using ledger_get_update db oid s row h
    · intro s1 s2
      have h1 := ledger_get_update db oid s1 row h
      have h2 := ledger_get_update _ oid s2 _ h1
      simpa [setStatus] using h2

/-- Witness for C3: an empty ledger answers not-found; a one-order ledger
gets its status overwritten to `approved` and reads it back. -/
theorem operator_decision_lifecycle_witness :
    operator_decision 1 1 [] "approve" 5 = ([], .notFound) ∧
    operator_decision 1 1 [(3, ⟨7, none, "N", "sell", ⟨10000, 2⟩, "LTC", "t", "pending"⟩)]
        "approve" 3 =
      (db_update_status [(3, ⟨7, none, "N", "sell", ⟨10000, 2⟩, "LTC", "t", "pending"⟩)]
          3 "approved", .answered "approved" 7) ∧
    db_get_order (db_update_status
        [(3, ⟨7, none, "N", "sell", ⟨10000, 2⟩, "LTC", "t", "pending"⟩)] 3 "approved") 3 =
      some ⟨7, none, "N", "sell", ⟨10000, 2⟩, "LTC", "t", "approved"⟩ :=
  ⟨(operator_decision_lifecycle 1 [] "approve" 5).1 rfl,
    ((operator_decision_lifecycle 1
        [(3, ⟨7, none, "N", "sell", ⟨10000, 2⟩, "LTC", "t", "pending"⟩)] "approve" 3).2
      ⟨7, none, "N", "sell", ⟨10000, 2⟩, "LTC", "t", "pending"⟩ rfl).1,
    ((operator_decision_lifecycle 1
        [(3, ⟨7, none, "N", "sell", ⟨10000, 2⟩, "LTC", "t", "pending"⟩)] "approve" 3).2
      ⟨7, none, "N", "sell", ⟨10000, 2⟩, "LTC", "t", "pending"⟩ rfl).2.1 "approved"⟩

/-! ### Broadcast (`run_broadcast`, bot.py 1247-1262, and `safe_copy_message`,
bot.py 454-476) -/

/-- What the transport does for one recipient: delivered, 403 (the
recipient blocked the bot), 429 rate-limited (with the outcome of the
single retry), or any other failure. -/
inductive SendOutcome
  | ok
  | blockedErr
  | rateLimited (retryOk : Bool)
  | otherFail
deriving DecidableEq

/-- `safe_copy_message` (bot.py 454-476): on 403 the user is marked blocked
and `None` is returned; on 429 the copy is retried once; other failures
return `None`; the `Bool` is "a message object was returned". -/
def safe_copy_message (transport : Int → SendOutcome) (db : UserDb) (uid : Int)
    (now : Nat) : UserDb × Bool :=
  match transport uid with
  | .ok => (db, true)
  | .blockedErr => (db_set_user_blocked db uid true now, false)
  | .rateLimited retryOk => (db, retryOk)
  | .otherFail => (db, false)

/-- Whether the delivery to a recipient ends up counted as failed. -/
def deliveryFails (transport : Int → SendOutcome) (uid : Int) : Bool :=
  match transport uid with
  | .ok => false
  | .blockedErr => true
  | .rateLimited retryOk => !retryOk
  | .otherFail => true

/-- The recipient loop of `run_broadcast` (bot.py 1247-1259): skip the
operator, attempt every other id, tally successes and failures. -/
def broadcast_go (transport : Int → SendOutcome) (opId : Int) (now : Nat) :
    List Int → UserDb → Nat → Nat → UserDb × Nat × Nat
  | [], db, sent, failed => (db, sent, failed)
  | uid :: rest, db, sent, failed =>
    if uid = opId then broadcast_go transport opId now rest db sent failed
    else
      let r := safe_copy_message transport db uid now
      if r.2 then broadcast_go transport opId now rest r.1 (sent + 1) failed
      else broadcast_go transport opId now rest r.1 sent (failed + 1)

/-- `run_broadcast` (bot.py 1247-1262): iterate over
`db_all_user_ids(only_active=False)` — every known user id, read once at
the start — and report the final `(sent, failed)` tally. -/
def run_broadcast (transport : Int → SendOutcome) (opId : Int) (now : Nat)
    (db : UserDb) : UserDb × Nat × Nat :=
  broadcast_go transport opId now (db.map Prod.fst) db 0 0

theorem safe_copy_message_eq (t : Int → SendOutcome) (db : UserDb) (uid : Int)
    (now : Nat) :
    safe_copy_message t db uid now =
      ((if t uid = .blockedErr then db_set_user_blocked db uid true now else db),
        !deliveryFails t uid) := by
  cases h : t uid <;> simp [safe_copy_message, deliveryFails, h]

theorem broadcast_go_counts (t : Int → SendOutcome) (op : Int) (now : Nat) :
    ∀ (ids : List Int) (db : UserDb) (s f : Nat),
      (broadcast_go t op now ids db s f).2.1 =
        s + ids.countP (fun u => decide (¬ u = op) && !deliveryFails t u) ∧
      (broadcast_go t op now ids db s f).2.2 =
        f + ids.countP (fun u => decide (¬ u = op) && deliveryFails t u) := by
  intro ids
  induction ids with
  | nil =>
    intro db s f
    constructor <;> simp [broadcast_go]
  | cons uid rest ih =>
    intro db s f
    by_cases hu : uid = op
    · simp only [broadcast_go, if_pos hu]
      obtain ⟨ih1, ih2⟩ := ih db s f
      constructor
      · rw [ih1, List.countP_cons,
          show (decide (¬ uid = op) && !deliveryFails t uid) = false by simp [hu],
          if_neg Bool.false_ne_true]
        omega
      · rw [ih2, List.countP_cons,
          show (decide (¬ uid = op) && deliveryFails t uid) = false by simp [hu],
          if_neg Bool.false_ne_true]
        omega
    · simp only [broadcast_go, if_neg hu, safe_copy_message_eq]
      by_cases hf : deliveryFails t uid = true
      · simp only [hf, Bool.not_true, Bool.false_eq_true, if_false]
        obtain ⟨ih1, ih2⟩ := ih _ s (f + 1)
        constructor
        · rw [ih1, List.countP_cons,
            show (decide (¬ uid = op) && !deliveryFails t uid) = false by simp [hu, hf],
            if_neg Bool.false_ne_true]
          omega
        · rw [ih2, List.countP_cons,
            show (decide (¬ uid = op) && deliveryFails t uid) = true by simp [hu, hf],
            if_pos rfl]
          omega
      · have hf2 : deliveryFails t uid = false := by
          simp only [Bool.not_eq_true] at hf
          exact hf
        simp only [hf2, Bool.not_false, if_true]
        obtain ⟨ih1, ih2⟩ := ih _ (s + 1) f
        constructor
        · rw [ih1, List.countP_cons,
            show (decide (¬ uid = op) && !deliveryFails t uid) = true by simp [hu, hf2],
            if_pos rfl]
          omega
        · rw [ih2, List.countP_cons,
            show (decide (¬ uid = op) && deliveryFails t uid) = false by simp [hu, hf2],
            if_neg Bool.false_ne_true]
          omega

theorem set_blocked_lookup (db : UserDb) (uid : Int) (b : Bool) (now : Nat) :
    db_lookup_user (db_set_user_blocked db uid b now) uid =
      (db_lookup_user db uid).map (blockRow b now) := by
  unfold db_set_user_blocked
  exact userdb_lookup_map_upd db uid _

theorem set_blocked_true_mono (db : UserDb) (uid x : Int) (now : Nat)
    (h : userBlocked db x = some true) :
    userBlocked (db_set_user_blocked db uid true now) x = some true := by
  by_cases hx : x = uid
  · subst hx
    unfold userBlocked at h ⊢
    rw [set_blocked_lookup]
    cases hl : db_lookup_user db x with
    | none => rw [hl] at h; cases h
    | some r =>
      rw [hl] at h
      have hb : r.blocked = true := by simpa using h
      simp [blockRow, hb]
  · unfold userBlocked at h ⊢
    unfold db_set_user_blocked
    rw [userdb_lookup_map_other db uid _ x hx]
    exact h

theorem set_blocked_marks (db : UserDb) (uid : Int) (now : Nat)
    (h : (db_lookup_user db uid).isSome = true) :
    userBlocked (db_set_user_blocked db uid true now) uid = some true := by
  unfold userBlocked
  rw [set_blocked_lookup]
  cases hl : db_lookup_user db uid with
  | none => rw [hl] at h; cases h
  | some r => simp [blockRow]

theorem set_blocked_isSome (db : UserDb) (uid x : Int) (b : Bool) (now : Nat) :
    (db_lookup_user (db_set_user_blocked db uid b now) x).isSome =
      (db_lookup_user db x).isSome := by
  by_cases hx : x = uid
  · subst hx
    rw [set_blocked_lookup]
    cases hl : db_lookup_user db x <;> simp
  · unfold db_set_user_blocked
    rw [userdb_lookup_map_other db uid _ x hx]

theorem broadcast_go_mono (t : Int → SendOutcome) (op : Int) (now : Nat) :
    ∀ (ids : List Int) (db : UserDb) (s f : Nat) (x : Int),
      userBlocked db x = some true →
      userBlocked ((broadcast_go t op now ids db s f).1) x = some true := by
  intro ids
  induction ids with
  | nil => intro db s f x h; exact h
  | cons uid rest ih =>
    intro db s f x h
    by_cases hu : uid = op
    · simp only [broadcast_go, if_pos hu]
      exact ih db s f x h
    · simp only [broadcast_go, if_neg hu, safe_copy_message_eq]
      have hdd : userBlocked
          (if t uid = SendOutcome.blockedErr then db_set_user_blocked db uid true now
            else db) x = some true := by
        by_cases hb : t uid = SendOutcome.blockedErr
        · rw [if_pos hb]
          exact set_blocked_true_mono db uid x now h
        · rw [if_neg hb]
          exact h
      by_cases hfb : (!deliveryFails t uid) = true
      · simp only [hfb, if_true]
        exact ih _ _ _ x hdd
      · simp only [hfb, Bool.false_eq_true, if_false,
          show (!deliveryFails t uid) = false by simpa using hfb]
        exact ih _ _ _ x hdd

theorem mem_keys_isSome (db : UserDb) (x : Int) (h : x ∈ db.map Prod.fst) :
    (db_lookup_user db x).isSome = true := by
  induction db with
  | nil => simp at h
  | cons hd t ih =>
    rw [List.map_cons, List.mem_cons] at h
    by_cases hk : hd.1 = x
    · simp [db_lookup_user_cons, hk]
    · rcases h with h1 | h2
      · exact absurd h1.symm hk
      · simp [db_lookup_user_cons, hk, ih h2]

theorem broadcast_go_marks (t : Int → SendOutcome) (op : Int) (now : Nat) :
    ∀ (ids : List Int) (db : UserDb) (s f : Nat) (x : Int),
      x ∈ ids → ¬ x = op → t x = .blockedErr →
      (db_lookup_user db x).isSome = true →
      userBlocked ((broadcast_go t op now ids db s f).1) x = some true := by
  intro ids
  induction ids with
  | nil => intro db s f x hx; simp at hx
  | cons uid rest ih =>
    intro db s f x hx hxop hxt hpresent
    by_cases hu : uid = op
    · have hx2 : x ∈ rest := by
        rcases List.mem_cons.mp hx with he | h2
        · exact absurd (he.trans hu) hxop
        · exact h2
      simp only [broadcast_go, if_pos hu]
      exact ih db s f x hx2 hxop hxt hpresent
    · simp only [broadcast_go, if_neg hu, safe_copy_message_eq]
      by_cases hxu : x = uid
      · subst hxu
        have hdd : userBlocked
            (if t x = SendOutcome.blockedErr then db_set_user_blocked db x true now
              else db) x = some true := by
          rw [if_pos hxt]
          exact set_blocked_marks db x now hpresent
        by_cases hfb : (!deliveryFails t x) = true
        · simp only [hfb, if_true]
          exact broadcast_go_mono t op now rest _ _ _ x hdd
        · simp only [hfb, Bool.false_eq_true, if_false,
            show (!deliveryFails t x) = false by simpa using hfb]
          exact broadcast_go_mono t op now rest _ _ _ x hdd
      · have hx2 : x ∈ rest := by
          rcases List.mem_cons.mp hx with he | h2
          · exact absurd he hxu
          · exact h2
        have hpres2 : (db_lookup_user
            (if t uid = SendOutcome.blockedErr then db_set_user_blocked db uid true now
              else db) x).isSome = true := by
          by_cases hb : t uid = SendOutcome.blockedErr
          · rw [if_pos hb, set_blocked_isSome]
            exact hpresent
          · rw [if_neg hb]
            exact hpresent
        by_cases hfb : (!deliveryFails t uid) = true
        · simp only [hfb, if_true]
          exact ih _ _ _ x hx2 hxop hxt hpres2
        · simp only [hfb, Bool.false_eq_true, if_false,
            show (!deliveryFails t uid) = false by simpa using hfb]
          exact ih _ _ _ x hx2 hxop hxt hpres2

theorem countP_and_split (l : List Int) (p q : Int → Bool) :
    l.countP (fun a => p a && q a) + l.countP (fun a => p a && !q a) = l.countP p := by
  induction l with
  | nil => rfl
  | cons a t ih =>
    simp only [List.countP_cons]
    cases hp : p a <;> cases hq : q a <;> simp [hp, hq] <;> omega

/-- **C5.** One broadcast run over the known user ids, the operator skipped:
with `N` recipients of which `K` fail, the reported tally is exactly `N - K`
successes and `K` failures (every recipient is attempted — the counts always
sum to `N`), and every recipient whose delivery failed with the 403
blocked-transport signal is marked blocked in the users table. -/
theorem run_broadcast_tally (t : Int → SendOutcome) (op : Int) (now : Nat)
    (db : UserDb) :
    (run_broadcast t op now db).2.1 =
      ((db.map Prod.fst).filter fun u => decide (¬ u = op)).length -
        ((db.map Prod.fst).filter fun u => decide (¬ u = op)).countP (deliveryFails t) ∧
    (run_broadcast t op now db).2.2 =
      ((db.map Prod.fst).filter fun u => decide (¬ u = op)).countP (deliveryFails t) ∧
    (run_broadcast t op now db).2.1 + (run_broadcast t op now db).2.2 =
      ((db.map Prod.fst).filter fun u => decide (¬ u = op)).length ∧
    ∀ x ∈ (db.map Prod.fst).filter fun u => decide (¬ u = op),
      t x = .blockedErr →
      userBlocked ((run_broadcast t op now db).1) x = some true := by
  obtain ⟨hsent, hfailed⟩ := broadcast_go_counts t op now (db.map Prod.fst) db 0 0
  have hK : ((db.map Prod.fst).filter fun u => decide (¬ u = op)).countP (deliveryFails t) =
      (db.map Prod.fst).countP (fun u => decide (¬ u = op) && deliveryFails t u) := by
    rw [List.countP_filter]
    apply List.countP_congr
    intro a _
    cases h1 : decide (¬ a = op) <;> cases h2 : deliveryFails t a <;> simp [h1, h2]
  have hN : ((db.map Prod.fst).filter fun u => decide (¬ u = op)).length =
      (db.map Prod.fst).countP (fun u => decide (¬ u = op)) :=
    Eq.symm (List.countP_eq_length_filter (fun u => decide (¬ u = op)) (db.map Prod.fst))
  have hsum : (db.map Prod.fst).countP (fun u => decide (¬ u = op) && !deliveryFails t u) +
      (db.map Prod.fst).countP (fun u => decide (¬ u = op) && deliveryFails t u) =
      (db.map Prod.fst).countP (fun u => decide (¬ u = op)) := by
    have := countP_and_split (db.map Prod.fst) (fun u => decide (¬ u = op))
      (fun u => !deliveryFails t u)
    simpa using this
  refine ⟨?_, ?_, ?_, ?_⟩
  · rw [show (run_broadcast t op now db).2.1 =
      (broadcast_go t op now (db.map Prod.fst) db 0 0).2.1 from rfl, hsent, hK, hN]
    omega
  · rw [show (run_broadcast t op now db).2.2 =
      (broadcast_go t op now (db.map Prod.fst) db 0 0).2.2 from rfl, hfailed, hK]
    omega
  · rw [show (run_broadcast t op now db).2.1 =
      (broadcast_go t op now (db.map Prod.fst) db 0 0).2.1 from rfl,
      show (run_broadcast t op now db).2.2 =
      (broadcast_go t op now (db.map Prod.fst) db 0 0).2.2 from rfl,
      hsent, hfailed, hN]
    omega
  · intro x hx hblocked
    rw [List.mem_filter] at hx
    have hxop : ¬ x = op := by
      have := hx.2
      simpa using this
    exact broadcast_go_marks t op now (db.map Prod.fst) db 0 0 x hx.1 hxop hblocked
      (mem_keys_isSome db x hx.1)

/-- Witness for C5: three users, id 3 is the operator, id 1 is
unreachable: 1 success, 1 failure, and user 1 ends up blocked. -/
theorem run_broadcast_tally_witness :
    userBlocked ((run_broadcast
        (fun u => if u = 1 then .blockedErr else .ok) 3 9
        [(1, ⟨none, "A", 0, 0, false⟩), (2, ⟨none, "B", 0, 0, false⟩),
          (3, ⟨none, "Op", 0, 0, false⟩)]).1) 1 = some true :=
  (run_broadcast_tally (fun u => if u = 1 then .blockedErr else .ok) 3 9
      [(1, ⟨none, "A", 0, 0, false⟩), (2, ⟨none, "B", 0, 0, false⟩),
        (3, ⟨none, "Op", 0, 0, false⟩)]).2.2.2 1 (by decide) (by decide)

end TomBot
